import Mathlib

/-!
The class DeepSeekChat of script.js: a shallow embedding and its checked properties.

The class `DeepSeekChat` of `script.js` is modelled as a record holding the
fields of the instance together with the two DOM nodes its methods touch: the
value of `#user-input` and the children of `#chat-container`.  Text is a list
of characters.  The asynchronous `sendMessage` is modelled with the outcome of
the `fetch` call as an argument, so that one call of the model is one complete
run of the method with nothing interleaved.
-/

namespace Script

/-! ## Text -/

/-- Text values of the script, as lists of characters. -/
abbrev Text := List Char

/-- The no-break space U+00A0. -/
def nbsp : Char := Char.ofNat 0xA0

/-- The backtick U+0060. -/
def backtick : Char := Char.ofNat 0x60

/-- ECMAScript `LineTerminator`: LF, CR, LS (U+2028), PS (U+2029).  These are
the characters that `.` does not match in a regular expression without the
`s` flag. -/
def isLineTerminator (c : Char) : Bool :=
  c.toNat = 0x0A || c.toNat = 0x0D || c.toNat = 0x2028 || c.toNat = 0x2029

/-- ECMAScript `WhiteSpace` (TAB, VT, FF, ZWNBSP and the Unicode category Zs)
together with `LineTerminator`: the characters `String.prototype.trim`
strips. -/
def isTrimChar (c : Char) : Bool :=
  c.toNat = 0x09 || c.toNat = 0x0B || c.toNat = 0x0C || c.toNat = 0x20 ||
  c.toNat = 0xA0 || c.toNat = 0x1680 || (0x2000 ≤ c.toNat && c.toNat ≤ 0x200A) ||
  c.toNat = 0x202F || c.toNat = 0x205F || c.toNat = 0x3000 || c.toNat = 0xFEFF ||
  isLineTerminator c

/-- The method `String.prototype.trim`: strips leading and trailing white
space and line terminators. -/
def trim (s : Text) : Text :=
  ((s.dropWhile isTrimChar).reverse.dropWhile isTrimChar).reverse

/-! ## escapeHtml -/

/-- Serialisation of one character of a text node by the `innerHTML` getter
(HTML standard, "escaping a string", outside attribute mode). -/
def escapeChar (c : Char) : Text :=
  if c = '&' then "&amp;".toList
  else if c = '<' then "&lt;".toList
  else if c = '>' then "&gt;".toList
  else if c = nbsp then "&nbsp;".toList
  else [c]

/-- The method `escapeHtml(text)`: a fresh `div` receives `text` as its
`textContent` and its `innerHTML` is read back, which serialises the single
text node character by character. -/
def escapeHtml (text : Text) : Text :=
  text.flatMap escapeChar

/-! ## The regular-expression replacements of formatAssistantResponse -/

/-- The tail `(.*?)D` of the patterns `D(.*?)D`, run on the text after the
opening delimiter `d`: the lazy group takes characters that are not line
terminators until the closing delimiter matches for the first time.  Returns
the captured group and the text after the match, or `none` when a line
terminator or the end of the text comes first. -/
def lazyUntil (d : Text) : Text → Option (Text × Text)
  | [] => none
  | c :: cs =>
    if d.isPrefixOf (c :: cs) then some ([], (c :: cs).drop d.length)
    else if isLineTerminator c then none
    else match lazyUntil d cs with
      | some (cap, rest) => some (c :: cap, rest)
      | none => none

/-- One attempt of the pattern `D(.*?)D` at the head of `s`: the captured
group and the text after the match. -/
def matchHere (d : Text) (s : Text) : Option (Text × Text) :=
  if d.isPrefixOf s then lazyUntil d (s.drop d.length) else none

/-- The call `s.replace(/D(.*?)D/g, 'O$1C')` for a delimiter `d` and the
replacement `o ++ $1 ++ c`: scanning left to right, the leftmost match is
replaced and scanning resumes after it; a character at which no match starts
is copied.  `skip` is the number of characters still to pass over because
they belong to the match just replaced. -/
def replaceFrom (d o c : Text) : Nat → Text → Text
  | _, [] => []
  | skip + 1, _ :: cs => replaceFrom d o c skip cs
  | 0, x :: cs =>
    match matchHere d (x :: cs) with
    | some (cap, _) =>
      o ++ cap ++ c ++ replaceFrom d o c (d.length + cap.length + d.length - 1) cs
    | none => x :: replaceFrom d o c 0 cs

/-- Global replacement of `D(.*?)D` by `O$1C` on a whole text. -/
def replaceDelimited (d o c : Text) (s : Text) : Text :=
  replaceFrom d o c 0 s

/-- The call `s.replace(/\n/g, '<br>')`. -/
def replaceNewlines (s : Text) : Text :=
  s.flatMap (fun ch => if ch = '\n' then "<br>".toList else [ch])

/-- The method `formatAssistantResponse(content)`: escape, then bold, italic,
inline code and line breaks, in this order. -/
def formatAssistantResponse (content : Text) : Text :=
  let formatted := escapeHtml content
  let formatted := replaceDelimited "**".toList "<strong>".toList "</strong>".toList formatted
  let formatted := replaceDelimited "*".toList "<em>".toList "</em>".toList formatted
  let formatted := replaceDelimited [backtick] "<code>".toList "</code>".toList formatted
  let formatted := replaceNewlines formatted
  formatted

/-! ## Data model -/

/-- The three role strings the script uses: `'user'` and `'assistant'` for the
entries of `conversationHistory`, and these two and `'error'` as the first
argument of `addMessageToUI`. -/
inductive Role
  | user
  | assistant
  | error
  deriving DecidableEq, Repr

/-- The string a role stands for. -/
def Role.name : Role → Text
  | .user => "user".toList
  | .assistant => "assistant".toList
  | .error => "error".toList

/-- One entry `{ role, content }` of `conversationHistory`. -/
structure Turn where
  role : Role
  content : Text
  deriving DecidableEq, Repr

/-- A child `div` of `#chat-container`: the three properties the script sets.
A `div` made by `document.createElement` has the empty `id`.  `innerHTML` is
the string as the script assigns it; what the HTML parser makes of it is
read through `Element.textContent`. -/
structure Element where
  id : Text
  className : Text
  innerHTML : Text
  deriving DecidableEq, Repr

/-- The JSON body handed to `fetch` before `JSON.stringify`.  The number
literal `0.7` is kept as its decimal text. -/
structure RequestBody where
  model : Text
  messages : List Turn
  stream : Bool
  temperature : Text
  max_tokens : Nat
  deriving DecidableEq, Repr

/-- The arguments of the `fetch` call of `callDeepSeekAPI`. -/
structure Request where
  url : Text
  method : Text
  headers : List (Text × Text)
  body : RequestBody
  deriving DecidableEq, Repr

/-- The object `error` of a failure body, with its optional `message`. -/
structure ErrorInfo where
  message : Option Text
  deriving DecidableEq, Repr

/-- The object `message` of a completion choice. -/
structure Message where
  content : Text
  deriving DecidableEq, Repr

/-- One element of `choices`. -/
structure Choice where
  message : Message
  deriving DecidableEq, Repr

/-- A parsed JSON response body, as far as the script reads it: the optional
member `error` (read when the status is not ok) and the optional array
`choices` (read when it is), at the types the completion API documents. -/
structure Body where
  error : Option ErrorInfo
  choices : Option (List Choice)
  deriving DecidableEq, Repr

/-- What the awaited `fetch` call and the following `response.json()` give:
either `fetch` rejects with an error carrying `message` (network failure), or
a response arrives with a status and `response.json()` either rejects with an
error message (malformed body) or yields the parsed body. -/
inductive FetchOutcome
  | rejected (message : Text)
  | responded (status : Nat) (json : Except Text Body)

/-- The property `response.ok`: the status is in the range 200 to 299. -/
def statusOk (status : Nat) : Bool :=
  200 ≤ status && status ≤ 299

/-- An instance of the class `DeepSeekChat` together with the DOM state its
methods read and write: the value of `#user-input`, the children of
`#chat-container` in document order, and the messages passed to
`console.error`. -/
structure DeepSeekChat where
  apiKey : Text
  baseURL : Text
  conversationHistory : List Turn
  userInput : Text
  chatContainer : List Element
  consoleErrors : List Text
  deriving DecidableEq, Repr

namespace DeepSeekChat

/-- The constructor, on a page whose input and panel are empty. -/
def create (apiKey baseURL : Text) : DeepSeekChat :=
  { apiKey := apiKey, baseURL := baseURL, conversationHistory := [],
    userInput := [], chatContainer := [], consoleErrors := [] }

/-- The default value of the constructor argument `baseURL`. -/
def defaultBaseURL : Text := "https://api.deepseek.com/v1".toList

/-- The HTML that `addMessageToUI` interpolates for `content`: `escapeHtml`
for user and error blocks, `formatAssistantResponse` for assistant blocks. -/
def contentHtml (role : Role) (content : Text) : Text :=
  match role with
  | .user => escapeHtml content
  | .assistant => formatAssistantResponse content
  | .error => escapeHtml content

/-- The template literal before the interpolated content, per role. -/
def templateHead : Role → Text
  | .user => "\n                <div class=\"message-content user-content\">\n                    <strong>你:</strong>\n                    <div>".toList
  | .assistant => "\n                <div class=\"message-content assistant-content\">\n                    <strong>助手:</strong>\n                    <div>".toList
  | .error => "\n                <div class=\"message-content error-content\">\n                    <strong>错误:</strong>\n                    <div>".toList

/-- The template literal after the interpolated content. -/
def templateTail : Text := "</div>\n                </div>\n            ".toList

/-- The `div` that `addMessageToUI(role, content)` creates. -/
def messageElement (role : Role) (content : Text) : Element :=
  { id := [],
    className := "message ".toList ++ role.name ++ "-message".toList,
    innerHTML := templateHead role ++ contentHtml role content ++ templateTail }

/-- The method `addMessageToUI(role, content)`: appends the new `div` to
`#chat-container`.  (The scroll position is not modelled.) -/
def addMessageToUI (s : DeepSeekChat) (role : Role) (content : Text) : DeepSeekChat :=
  { s with chatContainer := s.chatContainer ++ [messageElement role content] }

/-- The `id` of the pending indicator. -/
def loadingId : Text := "loading-indicator".toList

/-- The `div` that `showLoading` creates. -/
def loadingElement : Element :=
  { id := loadingId,
    className := "message assistant-message".toList,
    innerHTML := "\n            <div class=\"message-content assistant-content\">\n                <strong>助手:</strong>\n                <div class=\"loading-dots\">\n                    <span></span>\n                    <span></span>\n                    <span></span>\n                </div>\n            </div>\n        ".toList }

/-- The method `showLoading()`: appends the pending indicator to
`#chat-container`.  (The scroll position is not modelled.) -/
def showLoading (s : DeepSeekChat) : DeepSeekChat :=
  { s with chatContainer := s.chatContainer ++ [loadingElement] }

/-- Removal of the element `document.getElementById(i)` finds: the first
element with that `id` in document order, if there is one. -/
def removeById (i : Text) : List Element → List Element
  | [] => []
  | e :: es => if e.id = i then es else e :: removeById i es

/-- The method `hideLoading()`: removes the element found by
`document.getElementById('loading-indicator')`, if any.  Only the children
of `#chat-container` carry that `id`: `showLoading` is the one place that
sets it. -/
def hideLoading (s : DeepSeekChat) : DeepSeekChat :=
  { s with chatContainer := removeById loadingId s.chatContainer }

/-- The fixed greeting of `clearConversation`. -/
def greeting : Text := "你好！我是预制爱的DeepSeek助手，有什么可以帮你的吗？".toList

/-- The method `clearConversation()`. -/
def clearConversation (s : DeepSeekChat) : DeepSeekChat :=
  let s := { s with conversationHistory := [] }
  let s := { s with chatContainer := [] }
  s.addMessageToUI .assistant greeting

/-- The method `setApiKey(apiKey)`. -/
def setApiKey (s : DeepSeekChat) (apiKey : Text) : DeepSeekChat :=
  { s with apiKey := apiKey }

/-- The method `getConversationHistory()`: a copy of the history; the
instance is left as it is. -/
def getConversationHistory (s : DeepSeekChat) : List Turn × DeepSeekChat :=
  (s.conversationHistory, s)

/-- The method `setConversationHistory(history)`. -/
def setConversationHistory (s : DeepSeekChat) (history : List Turn) : DeepSeekChat :=
  { s with conversationHistory := history }

/-- The request `callDeepSeekAPI` hands to `fetch`, built from the instance
at the time of the call. -/
def fetchRequest (s : DeepSeekChat) : Request :=
  { url := s.baseURL ++ "/chat/completions".toList,
    method := "POST".toList,
    headers := [("Content-Type".toList, "application/json".toList),
                ("Authorization".toList, "Bearer ".toList ++ s.apiKey)],
    body := { model := "deepseek-chat".toList,
              messages := s.conversationHistory,
              stream := true,
              temperature := "0.7".toList,
              max_tokens := 2048 } }

/-- The message of the error thrown for a response that is not ok:
`errorData.error?.message || "HTTP error! status: " + status`.  An absent
`error`, an absent `message` and the empty string are all falsy. -/
def httpErrorMessage (status : Nat) (errorData : Body) : Text :=
  match errorData.error with
  | some e =>
    match e.message with
    | some m => if m = [] then "HTTP error! status: ".toList ++ Nat.toDigits 10 status else m
    | none => "HTTP error! status: ".toList ++ Nat.toDigits 10 status
  | none => "HTTP error! status: ".toList ++ Nat.toDigits 10 status

/-- The method `callDeepSeekAPI()`: the request issued, and either the parsed
body it returns or the message of the error it throws. -/
def callDeepSeekAPI (s : DeepSeekChat) (outcome : FetchOutcome) : Request × Except Text Body :=
  (fetchRequest s,
   match outcome with
   | .rejected m => .error m
   | .responded status json =>
     if !statusOk status then
       match json with
       | .error m => .error m
       | .ok errorData => .error (httpErrorMessage status errorData)
     else json)

/-- The `catch` block of `sendMessage` for an error with the given message. -/
def catchError (s : DeepSeekChat) (message : Text) : DeepSeekChat :=
  let s := s.hideLoading
  let s := s.addMessageToUI .error ("错误: ".toList ++ message)
  { s with consoleErrors := s.consoleErrors ++ [message] }

/-- The part of `sendMessage()` between the emptiness test and the call of
`callDeepSeekAPI`: the input is emptied, the user block is rendered, the user
turn is pushed and the pending indicator is shown. -/
def submitTurn (s : DeepSeekChat) (message : Text) : DeepSeekChat :=
  let s := { s with userInput := [] }
  let s := s.addMessageToUI .user message
  let s := { s with conversationHistory := s.conversationHistory ++ [Turn.mk .user message] }
  s.showLoading

/-- The method `sendMessage()`, run to completion with the given outcome of
its one `fetch` call.  The result is the final state and the requests issued. -/
def sendMessage (s : DeepSeekChat) (outcome : FetchOutcome) : DeepSeekChat × List Request :=
  let message := trim s.userInput
  if message = [] then (s, [])
  else
    let s := s.submitTurn message
    match s.callDeepSeekAPI outcome with
    | (request, .ok response) =>
      let s := s.hideLoading
      match response.choices with
      | some (choice :: _) =>
        let assistantMessage := choice.message.content
        let s := s.addMessageToUI .assistant assistantMessage
        ({ s with conversationHistory :=
            s.conversationHistory ++ [Turn.mk .assistant assistantMessage] }, [request])
      | _ => (s.catchError "No response from API".toList, [request])
    | (request, .error m) => (s.catchError m, [request])

/-- The part of `sendMessage()` that runs once the awaited call of
`callDeepSeekAPI()` has settled (lines 56 to 77), on the state the instance and
the page have at that time: with the parsed body it returned, or with the
message of the error it threw. -/
def settle (s : DeepSeekChat) (result : Except Text Body) : DeepSeekChat :=
  match result with
  | .ok response =>
    let s := s.hideLoading
    match response.choices with
    | some (choice :: _) =>
      let assistantMessage := choice.message.content
      let s := s.addMessageToUI .assistant assistantMessage
      { s with conversationHistory :=
          s.conversationHistory ++ [Turn.mk .assistant assistantMessage] }
    | _ => s.catchError "No response from API".toList
  | .error m => s.catchError m

/-! ## The text of a block -/

/-- Newline normalisation of the input of the HTML parser, which the
`innerHTML` setter runs on the assigned string: every CR LF pair and every
lone CR becomes one LF.  `afterCR` tells whether the character before was a
CR, whose LF is then dropped. -/
def normalizeFrom : Bool → Text → Text
  | _, [] => []
  | afterCR, c :: cs =>
    if c = '\r' then '\n' :: normalizeFrom true cs
    else if c = '\n' ∧ afterCR = true then normalizeFrom false cs
    else c :: normalizeFrom false cs

/-- Newline normalisation of a whole text. -/
def normalizeNewlines (s : Text) : Text :=
  normalizeFrom false s

/-- The character references `escapeHtml` produces, read after the `&`: the
character referred to and the number of characters of the name. -/
def charReference (cs : Text) : Option (Char × Nat) :=
  if "amp;".toList.isPrefixOf cs then some ('&', 4)
  else if "lt;".toList.isPrefixOf cs then some ('<', 3)
  else if "gt;".toList.isPrefixOf cs then some ('>', 3)
  else if "nbsp;".toList.isPrefixOf cs then some (nbsp, 5)
  else none

/-- The characters that end up in text nodes when the HTML parser reads the
markup in the body of a `div`: a tag, from `<` to the next `>`, gives no
text, a character reference gives the character it refers to, U+0000 is
ignored, any other character is kept.  `inTag` tells whether the scan is
inside a tag, `skip` is the number of characters of a reference still to pass
over.  This covers the markup `addMessageToUI` assigns for user and error
blocks: tags without `>` inside, and no `&` other than the four references of
`charReference`. -/
def textFrom : Bool → Nat → Text → Text
  | _, _, [] => []
  | inTag, skip + 1, _ :: cs => textFrom inTag skip cs
  | true, 0, c :: cs => if c = '>' then textFrom false 0 cs else textFrom true 0 cs
  | false, 0, c :: cs =>
    if c = '<' then textFrom true 0 cs
    else if c = '&' then
      match charReference cs with
      | some (ch, n) => ch :: textFrom false n cs
      | none => c :: textFrom false 0 cs
    else if c.toNat = 0 then textFrom false 0 cs
    else c :: textFrom false 0 cs

/-- The text of the nodes the HTML parser makes of a markup string. -/
def parsedText (html : Text) : Text :=
  textFrom false 0 (normalizeNewlines html)

end DeepSeekChat

/-- The property `textContent` of an element whose `innerHTML` was assigned:
the text of the nodes parsed from it. -/
def Element.textContent (e : Element) : Text :=
  DeepSeekChat.parsedText e.innerHTML

namespace DeepSeekChat

/-- The public operations of an instance. -/
inductive Operation
  | sendMessage (outcome : FetchOutcome)
  | clearConversation
  | setApiKey (apiKey : Text)
  | getConversationHistory
  | setConversationHistory (history : List Turn)

/-- The state after an operation. -/
def Operation.run : Operation → DeepSeekChat → DeepSeekChat
  | .sendMessage outcome, s => (s.sendMessage outcome).1
  | .clearConversation, s => s.clearConversation
  | .setApiKey k, s => s.setApiKey k
  | .getConversationHistory, s => s.getConversationHistory.2
  | .setConversationHistory h, s => s.setConversationHistory h

/-! ## Vocabulary of the properties -/

/-- The pending indicator: the element carrying the `id` that `hideLoading`
looks up. -/
def isPending (e : Element) : Bool :=
  e.id = loadingId

/-- A block of the given kind: an element with the class name
`addMessageToUI` gives that role, other than the pending indicator. -/
def isBlock (role : Role) (e : Element) : Bool :=
  !isPending e && e.className = "message ".toList ++ role.name ++ "-message".toList

/-- A request counts as failed when `fetch` rejects, when the status is not
ok, when the body of an ok response is malformed, or when its `choices` are
missing or empty. -/
def failedRequest : FetchOutcome → Bool
  | .rejected _ => true
  | .responded status json =>
    !statusOk status ||
    match json with
    | .error _ => true
    | .ok body => body.choices = none || body.choices = some []

/-- The message of the error a failed request ends with, by kind of failure:
the message `fetch` or `response.json()` rejects with, the message
`callDeepSeekAPI` throws for a status that is not ok, and the fixed message
for missing or empty `choices`. -/
def failureMessage : FetchOutcome → Option Text
  | .rejected m => some m
  | .responded _ (.error m) => some m
  | .responded status (.ok body) =>
    if !statusOk status then some (httpErrorMessage status body)
    else match body.choices with
      | some (_ :: _) => none
      | _ => some "No response from API".toList

/-- The member `error.message` of a failure body, when the body has one. -/
def serverMessage (body : Body) : Option Text :=
  match body.error with
  | some e => e.message
  | none => none

/-- A text as it stands in a text node after the HTML parser has read its
escaped form: newlines normalised and every U+0000 left out. -/
def keptText (s : Text) : Text :=
  (normalizeNewlines s).filter (fun ch => !decide (ch.toNat = 0))

/-- The text of an error block before the content. -/
def errorTextHead : Text :=
  "\n                \n                    错误:\n                    ".toList

/-- The text of a block after the content. -/
def blockTextTail : Text := "\n                \n            ".toList

/-- The tags the formatter inserts. -/
def fixedTags : List Text :=
  ["<strong>".toList, "</strong>".toList, "<em>".toList, "</em>".toList,
   "<code>".toList, "</code>".toList, "<br>".toList]

/-- The characters the four replacements look for: the asterisk, the
backtick and the newline. -/
def isMarkupChar (ch : Char) : Bool :=
  ch = '*' || ch = backtick || ch = '\n'

/-- Texts made of characters other than `<` and of whole fixed tags. -/
inductive TagSafe : Text → Prop
  | nil : TagSafe []
  | char (ch : Char) (s : Text) (hch : ch ≠ '<') (hs : TagSafe s) : TagSafe (ch :: s)
  | tag (t : Text) (s : Text) (ht : t ∈ fixedTags) (hs : TagSafe s) : TagSafe (t ++ s)

/-- Every `<` of the text is the first character of a fixed tag standing at
that place. -/
def OnlyFixedTags (html : Text) : Prop :=
  ∀ before after : Text, html = before ++ '<' :: after →
    ∃ t ∈ fixedTags, t <+: '<' :: after

/-! ## Lemmas on the panel -/

theorem removeById_of_forall_ne (i : Text) (l : List Element)
    (h : ∀ e ∈ l, e.id ≠ i) : removeById i l = l := by
  induction l with
  | nil => rfl
  | cons e es ih =>
    have he : e.id ≠ i := h e (List.mem_cons_self e es)
    have hes : ∀ x ∈ es, x.id ≠ i := fun x hx => h x (List.mem_cons_of_mem e hx)
    simp [removeById, he, ih hes]

theorem removeById_append_hit (i : Text) (l r : List Element) (x : Element)
    (h : ∀ e ∈ l, e.id ≠ i) (hx : x.id = i) :
    removeById i (l ++ x :: r) = l ++ r := by
  induction l with
  | nil => simp [removeById, hx]
  | cons e es ih =>
    have he : e.id ≠ i := h e (List.mem_cons_self e es)
    have hes : ∀ y ∈ es, y.id ≠ i := fun y hy => h y (List.mem_cons_of_mem e hy)
    simp [removeById, he, ih hes]

theorem countP_removeById (p : Element → Bool) (i : Text) (l : List Element)
    (hp : ∀ e, p e = true → e.id ≠ i) :
    (removeById i l).countP p = l.countP p := by
  induction l with
  | nil => rfl
  | cons e es ih =>
    by_cases he : e.id = i
    · have hpe : p e = false := by
        cases hq : p e with
        | false => rfl
        | true => exact absurd he (hp e hq)
      simp [removeById, he, List.countP_cons, hpe]
    · simp [removeById, he, List.countP_cons, ih]

theorem isBlock_id_ne (role : Role) (e : Element) (h : isBlock role e = true) :
    e.id ≠ loadingId := by
  simp [isBlock, isPending] at h
  exact h.1

theorem sendMessage_of_nonempty (s : DeepSeekChat) (outcome : FetchOutcome)
    (ht : trim s.userInput ≠ []) :
    s.sendMessage outcome =
      match (s.submitTurn (trim s.userInput)).callDeepSeekAPI outcome with
      | (request, .ok response) =>
        match response.choices with
        | some (choice :: _) =>
          ({ ((s.submitTurn (trim s.userInput)).hideLoading.addMessageToUI .assistant
                choice.message.content) with
             conversationHistory :=
               (s.submitTurn (trim s.userInput)).conversationHistory ++
                 [Turn.mk .assistant choice.message.content] }, [request])
        | _ => ((s.submitTurn (trim s.userInput)).hideLoading.catchError
                  "No response from API".toList, [request])
      | (request, .error m) => ((s.submitTurn (trim s.userInput)).catchError m, [request]) := by
  simp only [sendMessage, if_neg ht]
  rfl

theorem iterate_removeById_countP (p : Element → Bool) (i : Text)
    (hp : ∀ e, p e = true → e.id ≠ i) (k : Nat) (l : List Element) :
    ((removeById i)^[k] l).countP p = l.countP p := by
  induction k generalizing l with
  | zero => rfl
  | succ k ih => rw [Function.iterate_succ_apply, ih, countP_removeById p i l hp]

theorem iterate_removeById_idle (i : Text) (l : List Element) (x : Element)
    (h : ∀ e ∈ l, e.id ≠ i) (hx : x.id = i) (k : Nat) :
    (removeById i)^[k + 1] (l ++ [x]) = l := by
  rw [Function.iterate_succ_apply, removeById_append_hit i l [] x h hx, List.append_nil]
  induction k with
  | zero => rfl
  | succ k ih => rw [Function.iterate_succ_apply, removeById_of_forall_ne i l h, ih]

/-- The state a failed request ends in: the input emptied, the user turn
pushed, the error logged, and on the panel the user block, the pending
indicator looked up and removed once or twice, and the error block. -/
theorem sendMessage_failure_state (s : DeepSeekChat) (outcome : FetchOutcome) (m : Text)
    (ht : trim s.userInput ≠ []) (hm : failureMessage outcome = some m) :
    ∃ k : Nat, (s.sendMessage outcome).1 =
      { s with
        userInput := [],
        conversationHistory := s.conversationHistory ++ [Turn.mk .user (trim s.userInput)],
        chatContainer :=
          (removeById loadingId)^[k + 1]
              ((s.chatContainer ++ [messageElement .user (trim s.userInput)]) ++ [loadingElement]) ++
            [messageElement .error ("错误: ".toList ++ m)],
        consoleErrors := s.consoleErrors ++ [m] } := by
  rw [sendMessage_of_nonempty s _ ht]
  cases outcome with
  | rejected e =>
    simp only [failureMessage, Option.some.injEq] at hm
    subst hm
    exact ⟨0, rfl⟩
  | responded status json =>
    cases json with
    | error e =>
      simp only [failureMessage, Option.some.injEq] at hm
      subst hm
      cases hs : statusOk status
      · exact ⟨0, by simp only [callDeepSeekAPI, hs]; rfl⟩
      · exact ⟨0, by simp only [callDeepSeekAPI, hs]; rfl⟩
    | ok body =>
      cases hs : statusOk status
      · simp only [failureMessage, hs, Bool.not_false, if_true, Option.some.injEq] at hm
        subst hm
        exact ⟨0, by simp only [callDeepSeekAPI, hs]; rfl⟩
      · rcases hc : body.choices with _ | (_ | ⟨c, cs⟩)
        · simp [failureMessage, hs, hc] at hm
          subst hm
          exact ⟨1, by simp only [callDeepSeekAPI, hs, Bool.not_true, Bool.false_eq_true, if_false, hc]; rfl⟩
        · simp [failureMessage, hs, hc] at hm
          subst hm
          exact ⟨1, by simp only [callDeepSeekAPI, hs, Bool.not_true, Bool.false_eq_true, if_false, hc]; rfl⟩
        · simp [failureMessage, hs, hc] at hm

theorem failureMessage_of_failedRequest (outcome : FetchOutcome)
    (hf : failedRequest outcome = true) : ∃ m, failureMessage outcome = some m := by
  cases outcome with
  | rejected e => exact ⟨e, rfl⟩
  | responded status json =>
    cases json with
    | error e => exact ⟨e, rfl⟩
    | ok body =>
      cases hs : statusOk status
      · exact ⟨httpErrorMessage status body, by simp [failureMessage, hs]⟩
      · rcases hc : body.choices with _ | (_ | ⟨c, cs⟩)
        · exact ⟨"No response from API".toList, by simp [failureMessage, hs, hc]⟩
        · exact ⟨"No response from API".toList, by simp [failureMessage, hs, hc]⟩
        · simp [failedRequest, hs, hc] at hf

theorem escapeHtml_append (a b : Text) : escapeHtml (a ++ b) = escapeHtml a ++ escapeHtml b := by
  simp [escapeHtml, List.flatMap_append]

set_option maxRecDepth 20000 in
theorem formatAssistantResponse_greeting : formatAssistantResponse greeting = greeting := by
  decide

theorem messageElement_greeting_html :
    (messageElement .assistant greeting).innerHTML =
      templateHead .assistant ++ greeting ++ templateTail := by
  show templateHead .assistant ++ formatAssistantResponse greeting ++ templateTail = _
  rw [formatAssistantResponse_greeting]

theorem sendMessage_history_extends (s : DeepSeekChat) (outcome : FetchOutcome) :
    s.conversationHistory <+: (s.sendMessage outcome).1.conversationHistory := by
  by_cases ht : trim s.userInput = []
  · simp [sendMessage, ht]
  · by_cases hf : failedRequest outcome = true
    · obtain ⟨m, hm⟩ := failureMessage_of_failedRequest outcome hf
      obtain ⟨k, hk⟩ := sendMessage_failure_state s outcome m ht hm
      rw [hk]
      exact List.prefix_append _ _
    · rw [sendMessage_of_nonempty s _ ht]
      cases outcome with
      | rejected e => simp [failedRequest] at hf
      | responded status json =>
        cases json with
        | error e => simp [failedRequest] at hf
        | ok body =>
          cases hs : statusOk status
          · simp [failedRequest, hs] at hf
          · rcases hc : body.choices with _ | (_ | ⟨c, cs⟩)
            · simp [failedRequest, hs, hc] at hf
            · simp [failedRequest, hs, hc] at hf
            · simp only [callDeepSeekAPI, hs, Bool.not_true, Bool.false_eq_true, if_false, hc]
              exact ⟨[Turn.mk .user (trim s.userInput), Turn.mk .assistant c.message.content], by
                simp [submitTurn, showLoading, addMessageToUI]⟩

/-! ## Lemmas on the replacements -/

theorem replaceFrom_skip (d o c : Text) (k : Nat) (s : Text) :
    replaceFrom d o c k s = replaceFrom d o c 0 (s.drop k) := by
  induction s generalizing k with
  | nil => cases k <;> simp [replaceFrom]
  | cons x cs ih =>
    cases k with
    | zero => rfl
    | succ k => rw [replaceFrom, ih k, List.drop_succ_cons]

theorem lazyUntil_eq (d : Text) (s cap rest : Text)
    (h : lazyUntil d s = some (cap, rest)) : s = cap ++ d ++ rest := by
  induction s generalizing cap with
  | nil => simp [lazyUntil] at h
  | cons x cs ih =>
    unfold lazyUntil at h
    by_cases hp : d.isPrefixOf (x :: cs) = true
    · rw [if_pos hp] at h
      simp only [Option.some.injEq, Prod.mk.injEq] at h
      obtain ⟨h1, h2⟩ := h
      subst h1
      subst h2
      have := List.prefix_iff_eq_append.mp (List.isPrefixOf_iff_prefix.mp hp)
      simpa using this.symm
    · rw [if_neg hp] at h
      by_cases hl : isLineTerminator x = true
      · rw [if_pos hl] at h
        exact absurd h (by simp)
      · rw [if_neg hl] at h
        cases hr : lazyUntil d cs with
        | none => rw [hr] at h; exact absurd h (by simp)
        | some pr =>
          obtain ⟨cap1, rest1⟩ := pr
          rw [hr] at h
          simp only [Option.some.injEq, Prod.mk.injEq] at h
          obtain ⟨h1, h2⟩ := h
          subst h1
          subst h2
          rw [ih cap1 hr]
          simp

theorem matchHere_eq (d : Text) (s cap rest : Text)
    (h : matchHere d s = some (cap, rest)) : s = d ++ cap ++ d ++ rest := by
  unfold matchHere at h
  by_cases hp : d.isPrefixOf s = true
  · rw [if_pos hp] at h
    have h1 := List.prefix_iff_eq_append.mp (List.isPrefixOf_iff_prefix.mp hp)
    have h2 := lazyUntil_eq d _ cap rest h
    rw [h2] at h1
    rw [← h1]
    simp
  · rw [if_neg hp] at h
    exact absurd h (by simp)

/-- The replacement, one step at a time: a match at the head is replaced and
the scan goes on after it, otherwise the head is copied. -/
theorem replaceDelimited_cons (d o c : Text) (hd : d ≠ []) (x : Char) (cs : Text) :
    replaceDelimited d o c (x :: cs) =
      match matchHere d (x :: cs) with
      | some (cap, rest) => o ++ cap ++ c ++ replaceDelimited d o c rest
      | none => x :: replaceDelimited d o c cs := by
  unfold replaceDelimited
  rw [replaceFrom]
  cases h : matchHere d (x :: cs) with
  | none => rfl
  | some pr =>
    obtain ⟨cap, rest⟩ := pr
    simp only
    rw [replaceFrom_skip]
    have he := matchHere_eq d _ cap rest h
    have hlen : 1 ≤ d.length := List.length_pos.mpr hd
    have hcs : cs = List.drop 1 (d ++ cap ++ d ++ rest) := by rw [← he]; rfl
    have hdrop : List.drop (d.length + cap.length + d.length - 1) cs = rest := by
      rw [hcs, List.drop_drop]
      have : 1 + (d.length + cap.length + d.length - 1) = (d ++ cap ++ d).length := by
        simp only [List.length_append]
        omega
      rw [this, List.drop_left]
    rw [hdrop]

theorem replaceDelimited_nil (d o c : Text) : replaceDelimited d o c [] = [] := rfl

theorem matchHere_of_head_ne (dh : Char) (dt : Text) (x : Char) (cs : Text) (h : x ≠ dh) :
    matchHere (dh :: dt) (x :: cs) = none := by
  have hb : (dh == x) = false := by
    simp only [beq_eq_false_iff_ne, ne_eq]
    exact fun e => h e.symm
  simp [matchHere, List.isPrefixOf, hb]

theorem replaceDelimited_append_of_head_not_mem (dh : Char) (dt o c : Text) (a s : Text)
    (h : dh ∉ a) :
    replaceDelimited (dh :: dt) o c (a ++ s) = a ++ replaceDelimited (dh :: dt) o c s := by
  induction a with
  | nil => rfl
  | cons x xs ih =>
    have hx : x ≠ dh := fun e => h (e ▸ List.mem_cons_self x xs)
    have hxs : dh ∉ xs := fun e => h (List.mem_cons_of_mem x e)
    rw [List.cons_append, replaceDelimited_cons _ _ _ (List.cons_ne_nil dh dt),
      matchHere_of_head_ne dh dt x _ hx]
    simp only
    rw [ih hxs]
    rfl

theorem replaceDelimited_of_head_not_mem (dh : Char) (dt o c : Text) (s : Text) (h : dh ∉ s) :
    replaceDelimited (dh :: dt) o c s = s := by
  have := replaceDelimited_append_of_head_not_mem dh dt o c s [] h
  simpa [replaceDelimited_nil] using this

theorem replaceNewlines_append (a b : Text) :
    replaceNewlines (a ++ b) = replaceNewlines a ++ replaceNewlines b := by
  simp [replaceNewlines, List.flatMap_append]

theorem replaceNewlines_of_not_mem (s : Text) (h : '\n' ∉ s) : replaceNewlines s = s := by
  induction s with
  | nil => rfl
  | cons x xs ih =>
    have hx : x ≠ '\n' := fun e => h (e ▸ List.mem_cons_self x xs)
    have hxs : '\n' ∉ xs := fun e => h (List.mem_cons_of_mem x e)
    show (if x = '\n' then "<br>".toList else [x]) ++ replaceNewlines xs = x :: xs
    rw [if_neg hx, ih hxs]
    rfl

theorem escapeHtml_of_plain (s : Text)
    (h : ∀ ch ∈ s, ch ≠ '&' ∧ ch ≠ '<' ∧ ch ≠ '>' ∧ ch ≠ nbsp) : escapeHtml s = s := by
  induction s with
  | nil => rfl
  | cons x xs ih =>
    obtain ⟨h1, h2, h3, h4⟩ := h x (List.mem_cons_self x xs)
    have := ih (fun ch hch => h ch (List.mem_cons_of_mem x hch))
    simp only [escapeHtml] at this ⊢
    simp [List.flatMap_cons, escapeChar, h1, h2, h3, h4, this]

theorem lazyUntil_closing (dh : Char) (dt : Text) (x : Text)
    (hx : ∀ ch ∈ x, ch ≠ dh ∧ isLineTerminator ch = false) :
    lazyUntil (dh :: dt) (x ++ dh :: dt) = some (x, []) := by
  induction x with
  | nil =>
    have hp : (dh :: dt).isPrefixOf (dh :: dt) = true :=
      List.isPrefixOf_iff_prefix.mpr (List.prefix_refl _)
    show lazyUntil (dh :: dt) (dh :: dt) = some ([], [])
    unfold lazyUntil
    rw [if_pos hp]
    simp
  | cons y ys ih =>
    obtain ⟨h1, h2⟩ := hx y (List.mem_cons_self y ys)
    have hb : (dh == y) = false := by
      simp only [beq_eq_false_iff_ne, ne_eq]
      exact fun e => h1 e.symm
    have hp : ¬ ((dh :: dt).isPrefixOf (y :: (ys ++ dh :: dt)) = true) := by
      simp [List.isPrefixOf, hb]
    show lazyUntil (dh :: dt) (y :: (ys ++ dh :: dt)) = some (y :: ys, [])
    unfold lazyUntil
    rw [if_neg hp, h2, ih (fun ch hch => hx ch (List.mem_cons_of_mem y hch))]
    simp

/-! ## Lemmas on tag safety -/

theorem fixedTags_facts : ∀ t ∈ fixedTags,
    t.head? = some '<' ∧ (∀ ch ∈ t.tail, ch ≠ '<') ∧ (∀ ch ∈ t, isMarkupChar ch = false) := by
  decide

theorem TagSafe.append {a b : Text} (ha : TagSafe a) (hb : TagSafe b) : TagSafe (a ++ b) := by
  induction ha with
  | nil => exact hb
  | char ch s hch _ ih => exact TagSafe.char ch _ hch ih
  | tag t s ht _ ih =>
    rw [List.append_assoc]
    exact TagSafe.tag t _ ht ih

theorem TagSafe.of_forall_ne (s : Text) (h : ∀ ch ∈ s, ch ≠ '<') : TagSafe s := by
  induction s with
  | nil => exact TagSafe.nil
  | cons x xs ih =>
    exact TagSafe.char x xs (h x (List.mem_cons_self x xs))
      (ih (fun ch hch => h ch (List.mem_cons_of_mem x hch)))

theorem TagSafe.of_tag (t : Text) (ht : t ∈ fixedTags) : TagSafe t := by
  have := TagSafe.tag t [] ht TagSafe.nil
  simpa using this

/-- A safe text cut at a markup character gives two safe texts: no markup
character stands inside a tag. -/
theorem TagSafe.split (ch : Char) (hm : isMarkupChar ch = true) (l : Text) (hl : TagSafe l) :
    ∀ a b : Text, l = a ++ ch :: b → TagSafe a ∧ TagSafe b := by
  induction hl with
  | nil => intro a b h; simp at h
  | char x s hx hs ih =>
    intro a b h
    cases a with
    | nil =>
      simp only [List.nil_append, List.cons.injEq] at h
      obtain ⟨_, h2⟩ := h
      subst h2
      exact ⟨TagSafe.nil, hs⟩
    | cons y a1 =>
      simp only [List.cons_append, List.cons.injEq] at h
      obtain ⟨h1, h2⟩ := h
      subst h1
      obtain ⟨r1, r2⟩ := ih a1 b h2
      exact ⟨TagSafe.char x a1 hx r1, r2⟩
  | tag t s ht hs ih =>
    intro a b h
    rcases List.append_eq_append_iff.mp h with ⟨a1, ha, hs1⟩ | ⟨c1, ht1, hb⟩
    · obtain ⟨r1, r2⟩ := ih a1 b hs1
      rw [ha]
      exact ⟨TagSafe.append (TagSafe.of_tag t ht) r1, r2⟩
    · cases c1 with
      | nil =>
        simp only [List.append_nil] at ht1
        simp only [List.nil_append] at hb
        obtain ⟨_, r2⟩ := ih [] b (by simpa using hb.symm)
        rw [← ht1]
        exact ⟨TagSafe.of_tag t ht, r2⟩
      | cons z c2 =>
        simp only [List.cons_append, List.cons.injEq] at hb
        obtain ⟨hz, _⟩ := hb
        subst hz
        have hmem : ch ∈ t := by rw [ht1]; simp
        have := (fixedTags_facts t ht).2.2 ch hmem
        rw [hm] at this
        exact absurd this (by simp)

theorem TagSafe.strip (d : Text) (hd : ∀ ch ∈ d, isMarkupChar ch = true) (r : Text)
    (h : TagSafe (d ++ r)) : TagSafe r := by
  induction d with
  | nil => exact h
  | cons x xs ih =>
    have hx := hd x (List.mem_cons_self x xs)
    have := (TagSafe.split x hx _ h [] (xs ++ r) rfl).2
    exact ih (fun ch hch => hd ch (List.mem_cons_of_mem x hch)) this

theorem TagSafe.onlyFixedTags (l : Text) (hl : TagSafe l) : OnlyFixedTags l := by
  induction hl with
  | nil => intro a b h; simp at h
  | char x s hx hs ih =>
    intro a b h
    cases a with
    | nil =>
      simp only [List.nil_append, List.cons.injEq] at h
      exact absurd h.1 hx
    | cons y a1 =>
      simp only [List.cons_append, List.cons.injEq] at h
      exact ih a1 b h.2
  | tag t s ht hs ih =>
    intro a b h
    rcases List.append_eq_append_iff.mp h with ⟨a1, _, hs1⟩ | ⟨c1, ht1, hb⟩
    · exact ih a1 b hs1
    · cases c1 with
      | nil =>
        simp only [List.nil_append] at hb
        exact ih [] b (by simpa using hb.symm)
      | cons z c2 =>
        simp only [List.cons_append, List.cons.injEq] at hb
        obtain ⟨hz, hb2⟩ := hb
        subst hz
        obtain ⟨f1, f2, _⟩ := fixedTags_facts t ht
        cases a with
        | nil =>
          simp only [List.nil_append] at ht1
          refine ⟨t, ht, s, ?_⟩
          rw [ht1, hb2]
          rfl
        | cons y a1 =>
          rw [ht1] at f2
          exact absurd rfl (f2 '<' (by simp))

theorem TagSafe.replaceDelimited (dh : Char) (dt o c : Text)
    (hd : ∀ ch ∈ dh :: dt, isMarkupChar ch = true)
    (ho : o ∈ fixedTags) (hc : c ∈ fixedTags) :
    ∀ (n : Nat) (s : Text), s.length ≤ n → TagSafe s →
      TagSafe (Script.replaceDelimited (dh :: dt) o c s) := by
  intro n
  induction n with
  | zero =>
    intro s hlen _
    have : s = [] := List.length_eq_zero.mp (Nat.le_zero.mp hlen)
    subst this
    exact TagSafe.nil
  | succ n ih =>
    intro s hlen hs
    cases hs with
    | nil => exact TagSafe.nil
    | char x s1 hx hs1 =>
      rw [replaceDelimited_cons _ _ _ (List.cons_ne_nil dh dt)]
      cases hm : matchHere (dh :: dt) (x :: s1) with
      | none =>
        simp only
        exact TagSafe.char x _ hx (ih s1 (by simpa using hlen) hs1)
      | some pr =>
        obtain ⟨cap, rest⟩ := pr
        simp only
        have he := matchHere_eq _ _ cap rest hm
        have hall : TagSafe ((dh :: dt) ++ (cap ++ dh :: (dt ++ rest))) := by
          have h0 := TagSafe.char x s1 hx hs1
          rw [he] at h0
          simpa [List.append_assoc] using h0
        have h1 := TagSafe.strip _ hd _ hall
        obtain ⟨hcap, h2⟩ :=
          TagSafe.split dh (hd dh (List.mem_cons_self dh dt)) _ h1 cap (dt ++ rest) rfl
        have hrest := TagSafe.strip dt (fun ch hch => hd ch (List.mem_cons_of_mem dh hch)) _ h2
        have hlen2 : rest.length ≤ n := by
          have := congrArg List.length he
          simp only [List.length_cons, List.length_append] at this hlen
          omega
        rw [List.append_assoc, List.append_assoc]
        exact TagSafe.tag o _ ho (TagSafe.append hcap (TagSafe.tag c _ hc (ih rest hlen2 hrest)))
    | tag t s1 ht hs1 =>
      obtain ⟨f1, _, f3⟩ := fixedTags_facts t ht
      have hnot : dh ∉ t := by
        intro hmem
        have := f3 dh hmem
        rw [hd dh (List.mem_cons_self dh dt)] at this
        exact absurd this (by simp)
      have hlen2 : s1.length ≤ n := by
        cases t with
        | nil => simp at f1
        | cons y ys =>
          simp only [List.length_cons, List.length_append] at hlen
          omega
      rw [replaceDelimited_append_of_head_not_mem dh dt o c t s1 hnot]
      exact TagSafe.tag t _ ht (ih s1 hlen2 hs1)

theorem TagSafe.replaceNewlines (s : Text) (hs : TagSafe s) :
    TagSafe (Script.replaceNewlines s) := by
  induction hs with
  | nil => exact TagSafe.nil
  | char x s1 hx _ ih =>
    show TagSafe ((if x = '\n' then "<br>".toList else [x]) ++ Script.replaceNewlines s1)
    by_cases h : x = '\n'
    · rw [if_pos h]
      exact TagSafe.tag _ _ (by decide) ih
    · rw [if_neg h]
      exact TagSafe.char x _ hx ih
  | tag t s1 ht _ ih =>
    have hnot : '\n' ∉ t := by
      intro hmem
      have := (fixedTags_facts t ht).2.2 '\n' hmem
      exact absurd this (by decide)
    rw [replaceNewlines_append, replaceNewlines_of_not_mem t hnot]
    exact TagSafe.tag t _ ht ih

theorem escapeHtml_no_lt (s : Text) : ∀ ch ∈ escapeHtml s, ch ≠ '<' := by
  induction s with
  | nil => intro ch h; simp [escapeHtml] at h
  | cons x xs ih =>
    intro ch h
    have hsplit : escapeHtml (x :: xs) = escapeChar x ++ escapeHtml xs := rfl
    rw [hsplit] at h
    rcases List.mem_append.mp h with h1 | h1
    · unfold escapeChar at h1
      split_ifs at h1 with c1 c2 c3 c4
      · exact (by decide : ∀ y ∈ "&amp;".toList, y ≠ '<') ch h1
      · exact (by decide : ∀ y ∈ "&lt;".toList, y ≠ '<') ch h1
      · exact (by decide : ∀ y ∈ "&gt;".toList, y ≠ '<') ch h1
      · exact (by decide : ∀ y ∈ "&nbsp;".toList, y ≠ '<') ch h1
      · rw [List.mem_singleton.mp h1]; exact c2
    · exact ih ch h1

theorem formatAssistantResponse_tagSafe (content : Text) :
    TagSafe (formatAssistantResponse content) := by
  unfold formatAssistantResponse
  apply TagSafe.replaceNewlines
  apply TagSafe.replaceDelimited backtick [] _ _ (by decide) (by decide) (by decide) _ _ (le_refl _)
  apply TagSafe.replaceDelimited '*' [] _ _ (by decide) (by decide) (by decide) _ _ (le_refl _)
  apply TagSafe.replaceDelimited '*' ['*'] _ _ (by decide) (by decide) (by decide) _ _ (le_refl _)
  exact TagSafe.of_forall_ne _ (escapeHtml_no_lt content)

theorem contentHtml_tagSafe (role : Role) (content : Text) :
    TagSafe (contentHtml role content) := by
  cases role with
  | user => exact TagSafe.of_forall_ne _ (escapeHtml_no_lt content)
  | assistant => exact formatAssistantResponse_tagSafe content
  | error => exact TagSafe.of_forall_ne _ (escapeHtml_no_lt content)

theorem no_script_of_onlyFixedTags (html : Text) (h : OnlyFixedTags html) :
    ¬ ("<script".toList <:+: html) := by
  rintro ⟨before, after, he⟩
  obtain ⟨t, ht, hp⟩ := h before ("script".toList ++ after) (by rw [← he]; simp)
  simp only [fixedTags, List.mem_cons, List.mem_singleton, List.not_mem_nil, or_false] at ht
  rcases ht with rfl | rfl | rfl | rfl | rfl | rfl | rfl <;> simp at hp

/-! ## Lemmas on the text of a block -/

theorem normalizeFrom_append_of_no_cr (a y : Text) (h : ∀ ch ∈ a, ch ≠ '\r') :
    normalizeFrom false (a ++ y) = a ++ normalizeFrom false y := by
  induction a with
  | nil => rfl
  | cons x xs ih =>
    have hx : x ≠ '\r' := h x (List.mem_cons_self x xs)
    have := ih (fun ch hch => h ch (List.mem_cons_of_mem x hch))
    simp [normalizeFrom, hx, this]

theorem normalizeFrom_escapeHtml_append (y : Text) (hy : ∀ f, normalizeFrom f y = y) :
    ∀ (s : Text) (f : Bool),
      normalizeFrom f (escapeHtml s ++ y) = escapeHtml (normalizeFrom f s) ++ y := by
  intro s
  induction s with
  | nil => intro f; exact hy f
  | cons x xs ih =>
    intro f
    have hsplit : ∀ (z : Char) (zs : Text), escapeHtml (z :: zs) = escapeChar z ++ escapeHtml zs :=
      fun _ _ => rfl
    rw [hsplit, List.append_assoc]
    by_cases h1 : x = '\r'
    · subst h1
      simp [normalizeFrom, escapeChar, nbsp, ih, hsplit]
    · by_cases h2 : x = '\n'
      · subst h2
        cases f <;> simp [normalizeFrom, escapeChar, nbsp, ih, hsplit]
      · by_cases h3 : x = '&'
        · subst h3
          simp [normalizeFrom, escapeChar, ih, hsplit]
        · by_cases h4 : x = '<'
          · subst h4
            simp [normalizeFrom, escapeChar, ih, hsplit]
          · by_cases h5 : x = '>'
            · subst h5
              simp [normalizeFrom, escapeChar, ih, hsplit]
            · by_cases h6 : x = nbsp
              · subst h6
                simp [normalizeFrom, escapeChar, nbsp, ih, hsplit]
              · simp [normalizeFrom, escapeChar, h1, h2, h3, h4, h5, h6, ih, hsplit]

theorem textFrom_escapeHtml_append (y : Text) (s : Text) :
    textFrom false 0 (escapeHtml s ++ y) =
      s.filter (fun ch => !decide (ch.toNat = 0)) ++ textFrom false 0 y := by
  induction s with
  | nil => rfl
  | cons x xs ih =>
    have hsplit : escapeHtml (x :: xs) = escapeChar x ++ escapeHtml xs := rfl
    rw [hsplit, List.append_assoc]
    by_cases h3 : x = '&'
    · subst h3
      simp [textFrom, charReference, List.isPrefixOf, escapeChar, ih]
    · by_cases h4 : x = '<'
      · subst h4
        simp [textFrom, charReference, List.isPrefixOf, escapeChar, ih]
      · by_cases h5 : x = '>'
        · subst h5
          simp [textFrom, charReference, List.isPrefixOf, escapeChar, ih]
        · by_cases h6 : x = nbsp
          · subst h6
            simp [textFrom, charReference, List.isPrefixOf, escapeChar, nbsp, ih]
          · by_cases h0 : x.toNat = 0
            · simp [textFrom, escapeChar, h3, h4, h5, h6, h0, ih, List.filter_cons]
            · simp [textFrom, escapeChar, h3, h4, h5, h6, h0, ih, List.filter_cons]

set_option maxRecDepth 100000 in
theorem textFrom_templateHead_error (y : Text) :
    textFrom false 0 (templateHead .error ++ y) = errorTextHead ++ textFrom false 0 y := by
  rfl

set_option maxRecDepth 100000 in
theorem templateTail_facts :
    (∀ f, normalizeFrom f templateTail = templateTail) ∧
    textFrom false 0 templateTail = blockTextTail ∧
    (∀ ch ∈ templateHead .error, ch ≠ '\r') := by
  decide

/-- The text of an error block: the fixed text of the template around the
content as the parser keeps it. -/
theorem messageElement_error_text (content : Text) :
    (messageElement .error content).textContent =
      errorTextHead ++ keptText content ++ blockTextTail := by
  show textFrom false 0 (normalizeFrom false
      (templateHead .error ++ escapeHtml content ++ templateTail)) = _
  rw [List.append_assoc, normalizeFrom_append_of_no_cr _ _ templateTail_facts.2.2,
    normalizeFrom_escapeHtml_append _ templateTail_facts.1, textFrom_templateHead_error,
    textFrom_escapeHtml_append, templateTail_facts.2.1]
  simp [keptText, normalizeNewlines, List.append_assoc]

theorem keptText_error_message (m : Text) :
    keptText ("错误: ".toList ++ m) = "错误: ".toList ++ keptText m := by
  unfold keptText normalizeNewlines
  rw [normalizeFrom_append_of_no_cr _ _ (by decide), List.filter_append]
  congr 1

theorem keptText_of_plain (m : Text) (h : ∀ ch ∈ m, ch ≠ '\r' ∧ ch.toNat ≠ 0) :
    keptText m = m := by
  unfold keptText normalizeNewlines
  have h1 : normalizeFrom false m = m := by
    simpa [normalizeFrom] using normalizeFrom_append_of_no_cr m [] (fun ch hch => (h ch hch).1)
  rw [h1]
  apply List.filter_eq_self.mpr
  intro ch hch
  simpa using (h ch hch).2

theorem keptText_infix_error_text (m : Text) :
    keptText m <:+: (messageElement .error ("错误: ".toList ++ m)).textContent := by
  rw [messageElement_error_text, keptText_error_message]
  exact ⟨errorTextHead ++ "错误: ".toList, blockTextTail, by simp [List.append_assoc]⟩

theorem sendMessage_eq_settle (s : DeepSeekChat) (outcome : FetchOutcome)
    (ht : trim s.userInput ≠ []) :
    s.sendMessage outcome =
      (settle (s.submitTurn (trim s.userInput))
          ((s.submitTurn (trim s.userInput)).callDeepSeekAPI outcome).2,
        [fetchRequest (s.submitTurn (trim s.userInput))]) := by
  rw [sendMessage_of_nonempty s _ ht]
  cases outcome with
  | rejected m => rfl
  | responded status json =>
    cases json with
    | error m => cases hs : statusOk status <;> simp [callDeepSeekAPI, hs, settle]
    | ok body =>
      cases hs : statusOk status
      · simp [callDeepSeekAPI, hs, settle]
      · simp only [callDeepSeekAPI, hs, Bool.not_true, Bool.false_eq_true, if_false, settle]
        rcases hc : body.choices with _ | (_ | ⟨c, cs⟩) <;> rfl

set_option maxRecDepth 100000 in
theorem crlf_message_not_in_text :
    ∀ e ∈ (({ create [] defaultBaseURL with userInput := "Hi".toList }).sendMessage
          (.responded 401 (.ok ⟨some ⟨some "line1\r\nline2".toList⟩, none⟩))).1.chatContainer,
      ¬ ("line1\r\nline2".toList <:+: e.textContent) := by
  decide

/-! ## The checked properties -/

/-- C1: for every state with transcript `H` whose input trims to a non-empty
text `t`, and every response with an ok status whose `choices` start with a
choice of message content `c`, the transcript after `sendMessage` is `H`
followed by the user turn `t` and the assistant turn `c`. -/
theorem sendMessage_success_transcript (s : DeepSeekChat) (status : Nat) (body : Body)
    (choice : Choice) (others : List Choice)
    (ht : trim s.userInput ≠ []) (hs : statusOk status = true)
    (hc : body.choices = some (choice :: others)) :
    (s.sendMessage (.responded status (.ok body))).1.conversationHistory =
      s.conversationHistory ++
        [Turn.mk .user (trim s.userInput), Turn.mk .assistant choice.message.content] := by
  rw [sendMessage_of_nonempty s _ ht]
  simp [callDeepSeekAPI, hs, hc, submitTurn, showLoading, addMessageToUI, hideLoading]

/-- C1, instance: from the empty transcript, input "Hi" and a response of
status 200 with content "Hello" give the transcript user "Hi", assistant
"Hello". -/
theorem sendMessage_success_transcript_witness :
    trim "Hi".toList = "Hi".toList ∧
    (({ create [] defaultBaseURL with userInput := "Hi".toList }).sendMessage
        (.responded 200 (.ok ⟨none, some [⟨⟨"Hello".toList⟩⟩]⟩))).1.conversationHistory =
      [Turn.mk .user "Hi".toList, Turn.mk .assistant "Hello".toList] :=
  ⟨by decide,
   sendMessage_success_transcript { create [] defaultBaseURL with userInput := "Hi".toList }
     200 ⟨none, some [⟨⟨"Hello".toList⟩⟩]⟩ ⟨⟨"Hello".toList⟩⟩ [] (by decide) (by decide) rfl⟩

/-- C3: when the input is empty or trims to the empty text, `sendMessage`
changes nothing in the state (transcript, panel, input, console) and issues
no request, whatever the network would have answered. -/
theorem sendMessage_blank_noop (s : DeepSeekChat) (outcome : FetchOutcome)
    (ht : trim s.userInput = []) :
    s.sendMessage outcome = (s, []) := by
  simp [sendMessage, ht]

/-- C3, instance: an input of two spaces and a newline. -/
theorem sendMessage_blank_noop_witness :
    trim "  \n".toList = [] ∧
    ({ create [] defaultBaseURL with userInput := "  \n".toList }).sendMessage (.rejected []) =
      ({ create [] defaultBaseURL with userInput := "  \n".toList }, []) :=
  ⟨by decide,
   sendMessage_blank_noop { create [] defaultBaseURL with userInput := "  \n".toList }
     (.rejected []) (by decide)⟩

/-- C4: for every state with transcript `H` whose input trims to a non-empty
text `t` and every outcome of the request, the state in which the request is
built has the transcript `H` followed by the one user turn `t`, exactly one
request is issued, it is the one built from that state, and its `messages`
are `H` followed by the user turn `t`. -/
theorem sendMessage_request_carries_transcript (s : DeepSeekChat) (outcome : FetchOutcome)
    (ht : trim s.userInput ≠ []) :
    (s.submitTurn (trim s.userInput)).conversationHistory =
        s.conversationHistory ++ [Turn.mk .user (trim s.userInput)] ∧
    (s.sendMessage outcome).2 = [fetchRequest (s.submitTurn (trim s.userInput))] ∧
    (fetchRequest (s.submitTurn (trim s.userInput))).body.messages =
        s.conversationHistory ++ [Turn.mk .user (trim s.userInput)] := by
  refine ⟨rfl, ?_, rfl⟩
  rw [sendMessage_of_nonempty s _ ht]
  cases outcome with
  | rejected m => rfl
  | responded status json =>
    cases json with
    | error m => cases hs : statusOk status <;> simp [callDeepSeekAPI, hs]
    | ok body =>
      cases hs : statusOk status
      · simp [callDeepSeekAPI, hs]
      · simp only [callDeepSeekAPI, hs]
        rcases hc : body.choices with _ | (_ | ⟨c, cs⟩) <;> simp [hc]

/-- C4, instance: a transcript of two turns, input " again ". -/
theorem sendMessage_request_carries_transcript_witness :
    (({ create "k".toList defaultBaseURL with
          conversationHistory := [Turn.mk .user "a".toList, Turn.mk .assistant "b".toList],
          userInput := " again ".toList }).sendMessage (.rejected [])).2.map
        (fun (r : Request) => r.body.messages) =
      [[Turn.mk .user "a".toList, Turn.mk .assistant "b".toList, Turn.mk .user "again".toList]] := by
  have h := sendMessage_request_carries_transcript
    { create "k".toList defaultBaseURL with
        conversationHistory := [Turn.mk .user "a".toList, Turn.mk .assistant "b".toList],
        userInput := " again ".toList } (.rejected []) (by decide)
  rw [h.2.1]
  decide

/-- C2, as stated, fails.  For status 401 and the message "line1", CR, LF,
"line2", the request has failed with that message, yet no block on the panel
has a text containing it: the HTML parser turns the CR LF into one LF.  And
when `clearConversation` runs between the call and its completion, the
transcript afterwards is empty and not the old one followed by the user
turn. -/
theorem sendMessage_failure_counterexample :
    failedRequest (.responded 401 (.ok ⟨some ⟨some "line1\r\nline2".toList⟩, none⟩)) = true ∧
    failureMessage (.responded 401 (.ok ⟨some ⟨some "line1\r\nline2".toList⟩, none⟩)) =
      some "line1\r\nline2".toList ∧
    (∀ e ∈ (({ create [] defaultBaseURL with userInput := "Hi".toList }).sendMessage
          (.responded 401 (.ok ⟨some ⟨some "line1\r\nline2".toList⟩, none⟩))).1.chatContainer,
      ¬ ("line1\r\nline2".toList <:+: e.textContent)) ∧
    (settle
        (({ create [] defaultBaseURL with userInput := "Hi".toList }).submitTurn
          "Hi".toList).clearConversation
        ((({ create [] defaultBaseURL with userInput := "Hi".toList }).submitTurn
          "Hi".toList).callDeepSeekAPI
            (.responded 401 (.ok ⟨some ⟨some "bad key".toList⟩, none⟩))).2).conversationHistory ≠
      ({ create [] defaultBaseURL with userInput := "Hi".toList }).conversationHistory ++
        [Turn.mk .user "Hi".toList] :=
  ⟨by decide, by decide, crlf_message_not_in_text, by decide⟩

/-- C2, amended: for every state with transcript `H` whose input trims to a
non-empty text `t`, and every failed request (fetch rejects, the status is not
ok, the body is malformed, or `choices` are missing or empty), when
`sendMessage` runs with nothing interleaved there is a failure message `m`
with which the run ends, the transcript afterwards is `H` followed by the one
user turn `t`, the panel holds as many assistant blocks as before and one
error block more, its last element is the error block made from `m`, the text
of that block contains `m` as the parser keeps it (CR LF and CR turned into
LF, U+0000 left out), hence `m` itself when `m` has no CR and no U+0000, the
message is logged, and when no pending indicator was on the panel before, the
panel is the old one followed by the user block and the error block. -/
theorem sendMessage_failure (s : DeepSeekChat) (outcome : FetchOutcome)
    (ht : trim s.userInput ≠ []) (hf : failedRequest outcome = true) :
    ∃ m : Text, failureMessage outcome = some m ∧
      (s.sendMessage outcome).1.conversationHistory =
        s.conversationHistory ++ [Turn.mk .user (trim s.userInput)] ∧
      (s.sendMessage outcome).1.chatContainer.countP (isBlock .assistant) =
        s.chatContainer.countP (isBlock .assistant) ∧
      (s.sendMessage outcome).1.chatContainer.countP (isBlock .error) =
        s.chatContainer.countP (isBlock .error) + 1 ∧
      (s.sendMessage outcome).1.chatContainer.getLast? =
        some (messageElement .error ("错误: ".toList ++ m)) ∧
      keptText m <:+: (messageElement .error ("错误: ".toList ++ m)).textContent ∧
      ((∀ ch ∈ m, ch ≠ '\r' ∧ ch.toNat ≠ 0) →
        m <:+: (messageElement .error ("错误: ".toList ++ m)).textContent) ∧
      (s.sendMessage outcome).1.consoleErrors = s.consoleErrors ++ [m] ∧
      ((∀ e ∈ s.chatContainer, isPending e = false) →
        (s.sendMessage outcome).1.chatContainer =
          s.chatContainer ++
            [messageElement .user (trim s.userInput),
             messageElement .error ("错误: ".toList ++ m)]) := by
  obtain ⟨m, hm⟩ := failureMessage_of_failedRequest outcome hf
  obtain ⟨k, hk⟩ := sendMessage_failure_state s outcome m ht hm
  refine ⟨m, hm, ?_, ?_, ?_, ?_, ?_, ?_, ?_, ?_⟩
  · rw [hk]
  · rw [hk]
    simp only [List.countP_append]
    rw [iterate_removeById_countP _ _ (isBlock_id_ne .assistant)]
    simp only [List.countP_append]
    have h1 : List.countP (isBlock .assistant) [messageElement .user (trim s.userInput)] = 0 := by
      simp [isBlock, messageElement, Role.name]
    have h2 : List.countP (isBlock .assistant) [loadingElement] = 0 := by decide
    have h3 : List.countP (isBlock .assistant)
        [messageElement .error ("错误: ".toList ++ m)] = 0 := by
      simp [isBlock, messageElement, Role.name]
    rw [h1, h2, h3]
    rfl
  · rw [hk]
    simp only [List.countP_append]
    rw [iterate_removeById_countP _ _ (isBlock_id_ne .error)]
    simp only [List.countP_append]
    have h1 : List.countP (isBlock .error) [messageElement .user (trim s.userInput)] = 0 := by
      simp [isBlock, messageElement, Role.name]
    have h2 : List.countP (isBlock .error) [loadingElement] = 0 := by decide
    have h3 : List.countP (isBlock .error)
        [messageElement .error ("错误: ".toList ++ m)] = 1 := by
      simp [isBlock, isPending, messageElement, Role.name, loadingId]
    rw [h1, h2, h3]
  · rw [hk]
    simp
  · exact keptText_infix_error_text m
  · intro hplain
    have := keptText_infix_error_text m
    rwa [keptText_of_plain m hplain] at this
  · rw [hk]
  · intro hidle
    rw [hk]
    have hC : ∀ e ∈ s.chatContainer ++ [messageElement .user (trim s.userInput)],
        e.id ≠ loadingId := by
      intro e he
      rcases List.mem_append.mp he with h | h
      · simpa [isPending] using hidle e h
      · rw [List.mem_singleton.mp h]
        simp [messageElement, loadingId]
    simp only
    rw [iterate_removeById_idle loadingId _ loadingElement hC rfl k]
    simp

/-- C2, amended, instance: from the empty transcript and an empty panel,
input "Hi" and a response of status 401 with the body
`error.message = "bad key"` give the transcript user "Hi", and a panel of the
user block and one error block whose text contains "bad key". -/
theorem sendMessage_failure_witness :
    (({ create [] defaultBaseURL with userInput := "Hi".toList }).sendMessage
        (.responded 401 (.ok ⟨some ⟨some "bad key".toList⟩, none⟩))).1.conversationHistory =
      [Turn.mk .user "Hi".toList] ∧
    (({ create [] defaultBaseURL with userInput := "Hi".toList }).sendMessage
        (.responded 401 (.ok ⟨some ⟨some "bad key".toList⟩, none⟩))).1.chatContainer =
      [messageElement .user "Hi".toList, messageElement .error "错误: bad key".toList] ∧
    (({ create [] defaultBaseURL with userInput := "Hi".toList }).sendMessage
        (.responded 401 (.ok ⟨some ⟨some "bad key".toList⟩, none⟩))).1.chatContainer.countP
          (isBlock .error) = 1 ∧
    (({ create [] defaultBaseURL with userInput := "Hi".toList }).sendMessage
        (.responded 401 (.ok ⟨some ⟨some "bad key".toList⟩, none⟩))).1.chatContainer.countP
          (isBlock .assistant) = 0 ∧
    "bad key".toList <:+: (messageElement .error "错误: bad key".toList).textContent := by
  obtain ⟨m, hm, h1, h2, h3, _, _, h6, _, h8⟩ :=
    sendMessage_failure { create [] defaultBaseURL with userInput := "Hi".toList }
      (.responded 401 (.ok ⟨some ⟨some "bad key".toList⟩, none⟩)) (by decide) (by decide)
  have hm2 : some "bad key".toList = some m := hm
  cases hm2
  exact ⟨h1, h8 (by decide), h3, h2, h6 (by decide)⟩

/-- C5: whatever the state, `clearConversation` leaves an empty transcript and
a panel of exactly one element, the assistant block made from the greeting;
that element is not a pending indicator and its HTML is the assistant
template around the greeting itself. -/
theorem clearConversation_result (s : DeepSeekChat) :
    s.clearConversation.conversationHistory = [] ∧
    s.clearConversation.chatContainer = [messageElement .assistant greeting] ∧
    isBlock .assistant (messageElement .assistant greeting) = true ∧
    (messageElement .assistant greeting).innerHTML =
      templateHead .assistant ++ greeting ++ templateTail :=
  ⟨rfl, rfl, by decide, messageElement_greeting_html⟩

/-- C6: `clearConversation` is idempotent on the whole state. -/
theorem clearConversation_idempotent (s : DeepSeekChat) :
    s.clearConversation.clearConversation = s.clearConversation :=
  rfl

/-- C9, as stated, fails: for status 401 and the body
`{"error": {"message": ""}}` the body has an `error.message`, the empty text,
and the error thrown carries the status-derived message instead of it. -/
theorem callDeepSeekAPI_empty_message_counterexample :
    serverMessage ⟨some ⟨some []⟩, none⟩ = some [] ∧
    ((create [] defaultBaseURL).callDeepSeekAPI
        (.responded 401 (.ok ⟨some ⟨some []⟩, none⟩))).2 =
      .error "HTTP error! status: 401".toList ∧
    "HTTP error! status: 401".toList ≠ ([] : Text) :=
  ⟨rfl, rfl, by decide⟩

/-- C9, amended: for a status that is not ok, the error thrown by
`callDeepSeekAPI` carries the `error.message` of the body when the body has
one and it is not empty, and the text "HTTP error! status: " followed by the
status in decimal when the body has none or an empty one; for an ok status
with missing or empty `choices` and an input that trims to a non-empty text,
`sendMessage` ends with the error block made from "No response from API"
and logs that message. -/
theorem callDeepSeekAPI_failure_message (s : DeepSeekChat) (status : Nat) (body : Body) :
    (statusOk status = false →
      (∀ m, serverMessage body = some m → m ≠ [] →
        (s.callDeepSeekAPI (.responded status (.ok body))).2 = .error m) ∧
      (serverMessage body = none ∨ serverMessage body = some [] →
        (s.callDeepSeekAPI (.responded status (.ok body))).2 =
          .error ("HTTP error! status: ".toList ++ Nat.toDigits 10 status))) ∧
    (statusOk status = true → trim s.userInput ≠ [] →
      body.choices = none ∨ body.choices = some [] →
        (s.sendMessage (.responded status (.ok body))).1.chatContainer.getLast? =
          some (messageElement .error "错误: No response from API".toList) ∧
        (s.sendMessage (.responded status (.ok body))).1.consoleErrors =
          s.consoleErrors ++ ["No response from API".toList]) := by
  refine ⟨fun hs => ⟨?_, ?_⟩, ?_⟩
  · intro m hm hne
    simp only [callDeepSeekAPI, hs, Bool.not_false, if_true]
    congr 1
    unfold serverMessage at hm
    unfold httpErrorMessage
    cases he : body.error with
    | none => simp [he] at hm
    | some e =>
      simp only [he] at hm
      simp [hm, hne]
  · intro hm
    simp only [callDeepSeekAPI, hs, Bool.not_false, if_true]
    congr 1
    unfold serverMessage at hm
    unfold httpErrorMessage
    cases he : body.error with
    | none => rfl
    | some e =>
      simp only [he] at hm
      rcases hm with hm | hm <;> simp [hm]
  · intro hs ht hc
    have hm : failureMessage (.responded status (.ok body)) =
        some "No response from API".toList := by
      rcases hc with hc | hc <;> simp [failureMessage, hs, hc]
    obtain ⟨k, hk⟩ := sendMessage_failure_state s _ _ ht hm
    rw [hk]
    exact ⟨by simp, rfl⟩

/-- C9, amended, instances: status 401 with the message "bad key", status 500
with an empty body object, and status 200 with an empty `choices` array. -/
theorem callDeepSeekAPI_failure_message_witness :
    ((create [] defaultBaseURL).callDeepSeekAPI
        (.responded 401 (.ok ⟨some ⟨some "bad key".toList⟩, none⟩))).2 =
      .error "bad key".toList ∧
    ((create [] defaultBaseURL).callDeepSeekAPI (.responded 500 (.ok ⟨none, none⟩))).2 =
      .error "HTTP error! status: 500".toList ∧
    (({ create [] defaultBaseURL with userInput := "Hi".toList }).sendMessage
        (.responded 200 (.ok ⟨none, some []⟩))).1.consoleErrors =
      ["No response from API".toList] :=
  ⟨((callDeepSeekAPI_failure_message (create [] defaultBaseURL) 401
        ⟨some ⟨some "bad key".toList⟩, none⟩).1 (by decide)).1 "bad key".toList rfl (by decide),
   ((callDeepSeekAPI_failure_message (create [] defaultBaseURL) 500 ⟨none, none⟩).1
        (by decide)).2 (Or.inl rfl),
   ((callDeepSeekAPI_failure_message { create [] defaultBaseURL with userInput := "Hi".toList }
        200 ⟨none, some []⟩).2 (by decide) (by decide) (Or.inr rfl)).2⟩

/-- C10, as stated, fails: after `setConversationHistory` with a different
history the old transcript is not an initial part of the new one, and the new
one is not empty. -/
theorem setConversationHistory_counterexample :
    ¬ (({ create [] defaultBaseURL with
            conversationHistory := [Turn.mk .user "a".toList] }).conversationHistory <+:
          ((Operation.setConversationHistory [Turn.mk .assistant "b".toList]).run
            { create [] defaultBaseURL with
                conversationHistory := [Turn.mk .user "a".toList] }).conversationHistory ∨
        ((Operation.setConversationHistory [Turn.mk .assistant "b".toList]).run
            { create [] defaultBaseURL with
                conversationHistory := [Turn.mk .user "a".toList] }).conversationHistory = []) := by
  decide

/-- C10, amended: `sendMessage` (with any outcome), `setApiKey` and
`getConversationHistory` leave the old transcript as an initial part of the
new one, `clearConversation` leaves the empty transcript, and
`setConversationHistory` leaves the history it is given. -/
theorem transcript_after_operation (s : DeepSeekChat) (op : Operation) :
    match op with
    | .setConversationHistory h => (op.run s).conversationHistory = h
    | .clearConversation => (op.run s).conversationHistory = []
    | _ => s.conversationHistory <+: (op.run s).conversationHistory := by
  cases op with
  | setConversationHistory h => rfl
  | clearConversation => rfl
  | setApiKey k => exact List.prefix_refl _
  | getConversationHistory => exact List.prefix_refl _
  | sendMessage outcome =>
    show s.conversationHistory <+: (s.sendMessage outcome).1.conversationHistory
    exact sendMessage_history_extends s outcome

/-- C7: for every content and every role, every `<` of the HTML that
`addMessageToUI` interpolates for the content is the first character of one of
the fixed tags standing at that place; for the user and error roles the HTML
has no `<` at all; and whatever the content, the HTML does not contain the
text "<script". -/
theorem contentHtml_only_fixed_tags (role : Role) (content : Text) :
    OnlyFixedTags (contentHtml role content) ∧
    '<' ∉ contentHtml .user content ∧
    '<' ∉ contentHtml .error content ∧
    ¬ ("<script".toList <:+: contentHtml role content) :=
  ⟨TagSafe.onlyFixedTags _ (contentHtml_tagSafe role content),
   fun h => escapeHtml_no_lt content '<' h rfl,
   fun h => escapeHtml_no_lt content '<' h rfl,
   no_script_of_onlyFixedTags _ (TagSafe.onlyFixedTags _ (contentHtml_tagSafe role content))⟩

/-- C7, instance: the assistant content `<script>**x**` gives the HTML
`&lt;script&gt;<strong>x</strong>`, and its first `<` starts a fixed tag. -/
theorem contentHtml_only_fixed_tags_witness :
    contentHtml .assistant "<script>**x**".toList = "&lt;script&gt;<strong>x</strong>".toList ∧
    ∃ t ∈ fixedTags, t <+: "<strong>x</strong>".toList :=
  ⟨by decide,
   (contentHtml_only_fixed_tags .assistant "<script>**x**".toList).1
     "&lt;script&gt;".toList "strong>x</strong>".toList (by decide)⟩

/-- C8, as stated, fails: a no-break space holds none of the characters the
claim excludes, yet it is escaped inside the emphasis; and a carriage return,
which is not the newline character, keeps the bold pattern from matching. -/
theorem formatAssistantResponse_bold_counterexample :
    (∀ ch ∈ [nbsp], ch ≠ '*' ∧ ch ≠ backtick ∧ ch ≠ '\n' ∧ ch ≠ '&' ∧ ch ≠ '<' ∧ ch ≠ '>') ∧
    formatAssistantResponse ("**".toList ++ [nbsp] ++ "**".toList) =
      "<strong>&nbsp;</strong>".toList ∧
    formatAssistantResponse ("**".toList ++ [nbsp] ++ "**".toList) ≠
      "<strong>".toList ++ [nbsp] ++ "</strong>".toList ∧
    (∀ ch ∈ "a\rb".toList,
      ch ≠ '*' ∧ ch ≠ backtick ∧ ch ≠ '\n' ∧ ch ≠ '&' ∧ ch ≠ '<' ∧ ch ≠ '>') ∧
    formatAssistantResponse ("**".toList ++ "a\rb".toList ++ "**".toList) =
      "<em></em>a\rb<em></em>".toList ∧
    formatAssistantResponse ("**".toList ++ "a\rb".toList ++ "**".toList) ≠
      "<strong>".toList ++ "a\rb".toList ++ "</strong>".toList := by
  decide

/-- C8, amended: for every text `x` with no asterisk, no backtick, no line
terminator (LF, CR, U+2028, U+2029), none of `&`, `<`, `>` and no no-break
space, `formatAssistantResponse` of `**x**` is `<strong>x</strong>`. -/
theorem formatAssistantResponse_bold (x : Text)
    (hx : ∀ ch ∈ x, ch ≠ '*' ∧ ch ≠ backtick ∧ isLineTerminator ch = false ∧
      ch ≠ '&' ∧ ch ≠ '<' ∧ ch ≠ '>' ∧ ch ≠ nbsp) :
    formatAssistantResponse ("**".toList ++ x ++ "**".toList) =
      "<strong>".toList ++ x ++ "</strong>".toList := by
  have hplain : ∀ ch ∈ "**".toList ++ x ++ "**".toList,
      ch ≠ '&' ∧ ch ≠ '<' ∧ ch ≠ '>' ∧ ch ≠ nbsp := by
    intro ch hch
    have hstar : ∀ y ∈ "**".toList, y ≠ '&' ∧ y ≠ '<' ∧ y ≠ '>' ∧ y ≠ nbsp := by decide
    rcases List.mem_append.mp hch with h | h
    · rcases List.mem_append.mp h with h | h
      · exact hstar ch h
      · exact ⟨(hx ch h).2.2.2.1, (hx ch h).2.2.2.2.1, (hx ch h).2.2.2.2.2.1,
          (hx ch h).2.2.2.2.2.2⟩
    · exact hstar ch h
  have hout : ∀ ch ∈ "<strong>".toList ++ x ++ "</strong>".toList,
      ch ≠ '*' ∧ ch ≠ backtick ∧ ch ≠ '\n' := by
    intro ch hch
    rcases List.mem_append.mp hch with h | h
    · rcases List.mem_append.mp h with h | h
      · exact (by decide : ∀ y ∈ "<strong>".toList, y ≠ '*' ∧ y ≠ backtick ∧ y ≠ '\n') ch h
      · refine ⟨(hx ch h).1, (hx ch h).2.1, ?_⟩
        intro e
        have := (hx ch h).2.2.1
        rw [e] at this
        exact absurd this (by decide)
    · exact (by decide : ∀ y ∈ "</strong>".toList, y ≠ '*' ∧ y ≠ backtick ∧ y ≠ '\n') ch h
  have hbold : replaceDelimited "**".toList "<strong>".toList "</strong>".toList
      ("**".toList ++ x ++ "**".toList) = "<strong>".toList ++ x ++ "</strong>".toList := by
    show replaceDelimited ['*', '*'] _ _ ('*' :: ('*' :: (x ++ ['*', '*']))) = _
    rw [replaceDelimited_cons _ _ _ (by simp)]
    have hm : matchHere ['*', '*'] ('*' :: ('*' :: (x ++ ['*', '*']))) = some (x, []) := by
      have := lazyUntil_closing '*' ['*'] x (fun ch hch => ⟨(hx ch hch).1, (hx ch hch).2.2.1⟩)
      simpa [matchHere, List.isPrefixOf] using this
    rw [hm]
    simp [replaceDelimited_nil]
  unfold formatAssistantResponse
  simp only
  rw [escapeHtml_of_plain _ hplain, hbold]
  have hstar : "*".toList = ['*'] := rfl
  rw [hstar, replaceDelimited_of_head_not_mem '*' [] _ _ _ (fun h => (hout _ h).1 rfl)]
  rw [replaceDelimited_of_head_not_mem backtick [] _ _ _ (fun h => (hout _ h).2.1 rfl),
    replaceNewlines_of_not_mem _ (fun h => (hout _ h).2.2 rfl)]

/-- C8, amended, instance: `**bold**` gives `<strong>bold</strong>`. -/
theorem formatAssistantResponse_bold_witness :
    formatAssistantResponse "**bold**".toList = "<strong>bold</strong>".toList :=
  formatAssistantResponse_bold "bold".toList (by decide)

end DeepSeekChat

end Script
